import Mathlib

/-!
# Adafruit LSM303AGR magnetometer driver

A shallow embedding of `src/Adafruit_LSM303AGR_Mag.cpp`.

* The driver object is the record `Driver`; the outside world (the I2C device
  behind the transport, the serial console, the clock) is the record `World`.
  Every member function of the driver is a function on `Driver × World`.
* A member function that dereferences a pointer the driver has not set yet
  (`i2c_dev`, `config_a`) has no defined behaviour in C++; it returns `none`.
* `uint32_t` arithmetic is arithmetic on `Nat` modulo `2 ^ 32`; a register holds
  a byte (`Fin 256`). Floating-point products are not evaluated: an event
  records the operands of each product (`FloatProduct`), so nothing is said
  about the rounded `float` that the program stores. The only `float` values
  with a number in this model are the exact zeros of the descriptor.
* The header `Adafruit_LSM303AGR_Mag.h` and the libraries `Adafruit_BusIO` and
  `Adafruit_Sensor` are not among the translated sources. The constants they
  declare are the fields of `Header`; the register helpers are modelled from
  the specification's description of the transport.
-/

namespace LSM303AGR

/-! ## Constants of the missing headers -/

/-- Constants used by the driver but declared in headers that are not among the
sources (`Adafruit_LSM303AGR_Mag.h`, `Adafruit_Sensor.h`). They are parameters
of the model; nothing is assumed about their values. -/
structure Header where
  /-- register offset of the identity register -/
  LSM303AGR_WHO_AM_I : Nat
  /-- expected identity byte -/
  _CHIP_ID : Nat
  /-- register offset of configuration register A -/
  LSM303AGR_CFG_REG_A : Nat
  /-- register offset of configuration register C -/
  LSM303AGR_CFG_REG_C : Nat
  /-- register offset of the first output-data register -/
  LSM303AGR_OUTX_L_REG : Nat
  /-- least-significant-bit weight, in milligauss -/
  LSM303AGR_MAG_LSB : ℚ
  /-- milligauss to microtesla conversion constant -/
  LSM303AGR_MILLIGAUSS_TO_MICROTESLA : ℚ
  /-- type tag of a magnetic-field sensor -/
  SENSOR_TYPE_MAGNETIC_FIELD : Int
  /-- value of `sizeof(sensors_event_t)` -/
  sizeof_sensors_event_t : Int
  /-- value of `sizeof(sensor->name)`, the width of the descriptor's name field -/
  sizeof_name : Nat

/-! ## The world: transport, console, clock -/

/-- Observable actions of the driver, in the order they happen. -/
inductive Event where
  /-- The call `i2c_dev->begin()` on the device at the given bus address -/
  | busBegin (deviceAddress : Nat)
  /-- a register read of `byteCount` bytes starting at `registerOffset` -/
  | readRegister (registerOffset byteCount : Nat)
  /-- a register write of `bytes` starting at `registerOffset` -/
  | writeRegister (registerOffset : Nat) (bytes : List Nat)
  /-- A call `delay(ms)` -/
  | delay (ms : Nat)
  /-- A `Serial.print` or `Serial.println` of a text -/
  | serialText (msg : String)
  /-- A `Serial.println` of a number -/
  | serialNumber (n : Nat)
  deriving DecidableEq, Repr

/-- Is the event a register read? -/
def Event.isRead : Event → Bool
  | .readRegister _ _ => true
  | _ => false

/-- Is the event a register write? -/
def Event.isWrite : Event → Bool
  | .writeRegister _ _ => true
  | _ => false

/-- Is the event a delay? -/
def Event.isDelay : Event → Bool
  | .delay _ => true
  | _ => false

/-- Modelled from the spec: the bus transport collaborator of section 6
(`open`, `readRegister`, `writeRegister`), realised as a fake device whose
registers are plain memory, together with a log of everything the driver did
and the millisecond clock. `Adafruit_I2CDevice` itself is not among the sources. -/
structure World where
  /-- result that opening the transport will give -/
  openOk : Bool
  /-- register file of the device: one byte per register offset -/
  regs : Nat → Fin 256
  /-- everything done so far, oldest first -/
  trace : List Event
  /-- milliseconds since start -/
  clock : Nat

/-- Append an event to the log. -/
def World.log (w : World) (e : Event) : World :=
  { w with trace := w.trace ++ [e] }

/-- The byte `n mod 256`. -/
def toByte (n : Nat) : Fin 256 := ⟨n % 256, Nat.mod_lt _ (by decide)⟩

/-- Modelled from the spec: `open(deviceAddress) → bool` of the transport
(`Adafruit_I2CDevice::begin`, not among the sources). -/
def World.busBegin (w : World) (deviceAddress : Nat) : Bool × World :=
  (w.openOk, w.log (.busBegin deviceAddress))

/-- Modelled from the spec: `readRegister(deviceAddress, registerOffset, byteCount) → bytes`
of the transport: the bytes at `registerOffset`, `registerOffset + 1`, ... -/
def World.readRegister (w : World) (registerOffset byteCount : Nat) : List Nat × World :=
  ((List.range byteCount).map (fun i => (w.regs (registerOffset + i)).val),
   w.log (.readRegister registerOffset byteCount))

/-- Modelled from the spec: `writeRegister(deviceAddress, registerOffset, byteCount, bytes)`
of the transport: byte `i` is stored at `registerOffset + i`, other registers keep
their content. -/
def World.writeRegister (w : World) (registerOffset : Nat) (bytes : List Nat) : World :=
  { w with
    regs := fun r =>
      if registerOffset ≤ r ∧ r < registerOffset + bytes.length
      then toByte (bytes.getD (r - registerOffset) 0)
      else w.regs r
    trace := w.trace ++ [.writeRegister registerOffset bytes] }

/-- The call `delay(ms)`: logged, and the clock advances. -/
def World.delay (w : World) (ms : Nat) : World :=
  { w with trace := w.trace ++ [.delay ms], clock := w.clock + ms }

/-! ## `uint32_t` arithmetic -/

/-- Reduction to `uint32_t`. -/
def u32 (n : Nat) : Nat := n % 2 ^ 32

/-- Bitwise complement on `uint32_t`. -/
def u32not (n : Nat) : Nat := 2 ^ 32 - 1 - u32 n

/-! ## Register helpers of `Adafruit_BusIO` -/

/-- Modelled from the spec: a register of the device, `Adafruit_BusIO_Register(i2c_dev, address, width)`
(library `Adafruit_BusIO`, not among the sources), least significant byte first. -/
structure Adafruit_BusIO_Register where
  /-- register offset -/
  address : Nat
  /-- width in bytes -/
  width : Nat
  deriving DecidableEq, Repr

/-- Modelled from the spec: `Adafruit_BusIO_Register::read(buffer, len)`, one
register read of `len` bytes at the register's offset. -/
def Adafruit_BusIO_Register.readBuffer (r : Adafruit_BusIO_Register) (len : Nat)
    (w : World) : List Nat × World :=
  w.readRegister r.address len

/-- Modelled from the spec: `Adafruit_BusIO_Register::read()`: the register's
`width` bytes assembled into a `uint32_t`, least significant byte first. -/
def Adafruit_BusIO_Register.read (r : Adafruit_BusIO_Register) (w : World) : Nat × World :=
  let (buffer, w1) := r.readBuffer r.width w
  (buffer.foldr (fun b value => u32 (value <<< 8) ||| b) 0, w1)

/-- Modelled from the spec: `Adafruit_BusIO_Register::write(value, numbytes)`:
the low `numbytes` bytes of `value`, least significant first, in one register
write; nothing is written for more than four bytes. -/
def Adafruit_BusIO_Register.write (r : Adafruit_BusIO_Register) (value numbytes : Nat)
    (w : World) : World :=
  let numbytes := if numbytes = 0 then r.width else numbytes
  if numbytes > 4 then w
  else w.writeRegister r.address ((List.range numbytes).map (fun i => (value >>> (8 * i)) &&& 0xFF))

/-- Modelled from the spec: a bit field of a register (section 9: register,
bit offset, bit width), `Adafruit_BusIO_RegisterBits(reg, bits, shift)`. -/
structure Adafruit_BusIO_RegisterBits where
  /-- the register that holds the field -/
  reg : Adafruit_BusIO_Register
  /-- width of the field in bits -/
  bits : Nat
  /-- position of the field's lowest bit -/
  shift : Nat
  deriving DecidableEq, Repr

/-- The register value that `Adafruit_BusIO_RegisterBits::write(data)` writes
back for a field of `bits` bits at position `shift` when it has read `val`:
the field is replaced by the low `bits` bits of `data`, the other bits of `val`
are kept. -/
def mergeField (bits shift val data : Nat) : Nat :=
  let mask := u32 ((1 <<< bits) - 1)
  let data := u32 data &&& mask
  let mask := u32 (mask <<< shift)
  let val := val &&& u32not mask
  val ||| u32 (data <<< shift)

/-- The value `Adafruit_BusIO_RegisterBits::read()` returns for a field of
`bits` bits at position `shift` when the register holds `val`. -/
def extractField (bits shift val : Nat) : Nat :=
  let val := val >>> shift
  val &&& u32 ((1 <<< bits) - 1)

/-- Modelled from the spec: `Adafruit_BusIO_RegisterBits::write(data)`,
read-modify-write of the register: one read, then one write of the merged value. -/
def Adafruit_BusIO_RegisterBits.write (b : Adafruit_BusIO_RegisterBits) (data : Nat)
    (w : World) : World :=
  let (val, w1) := b.reg.read w
  b.reg.write (mergeField b.bits b.shift val data) b.reg.width w1

/-- Modelled from the spec: `Adafruit_BusIO_RegisterBits::read()`: one read of
the register, from which the field is extracted. -/
def Adafruit_BusIO_RegisterBits.read (b : Adafruit_BusIO_RegisterBits) (w : World) : Nat × World :=
  let (val, w1) := b.reg.read w
  (extractField b.bits b.shift val, w1)

/-! ## The driver -/

/-- Raw sample of the driver (`raw`): three signed 16-bit integers. The type is
declared in the missing header; the specification's data model gives it. -/
structure lsm303AGRMagData where
  x : Int
  y : Int
  z : Int
  deriving DecidableEq, Repr

/-- State of an `Adafruit_LSM303AGR_Mag_Unified` object. A pointer that has not
been assigned yet is `none`. -/
structure Driver where
  /-- identifier given at construction -/
  _sensorID : Int
  /-- last raw sample -/
  raw : lsm303AGRMagData
  /-- the I2C device (its bus address), created by `begin` -/
  i2c_dev : Option Nat
  /-- configuration register A, created by a successful `begin` -/
  config_a : Option Adafruit_BusIO_Register
  deriving DecidableEq, Repr

/-- Conversion of a `uint16_t` to `int16_t`: two's complement. -/
def toInt16 (v : Nat) : Int :=
  if v % 65536 < 32768 then (v % 65536 : Nat) else ((v % 65536 : Nat) : Int) - 65536

/-- Element `i` of a `uint16_t` array laid over the byte buffer `buffer`, on a
little-endian host (every target of the library is one). -/
def uint16At (buffer : List Nat) (i : Nat) : Nat :=
  buffer.getD (2 * i) 0 + 256 * buffer.getD (2 * i + 1) 0

/-- Member function `Adafruit_LSM303AGR_Mag_Unified::read`: reads the six output bytes in one
register read and stores them as the raw sample. -/
def read (h : Header) (d : Driver) (w : World) : Option (Driver × World) :=
  match d.i2c_dev with
  | none => none
  | some _ =>
    let data_reg : Adafruit_BusIO_Register := ⟨h.LSM303AGR_OUTX_L_REG, 6⟩
    let (buffer, w1) := data_reg.readBuffer 6 w
    some ({ d with raw := ⟨toInt16 (uint16At buffer 0), toInt16 (uint16At buffer 1),
                           toInt16 (uint16At buffer 2)⟩ }, w1)

/-- The constructor: stores the identifier and clears the raw sample. -/
def Adafruit_LSM303AGR_Mag_Unified (sensorID : Int) : Driver :=
  { _sensorID := sensorID, raw := ⟨0, 0, 0⟩, i2c_dev := none, config_a := none }

/-- Member function `Adafruit_LSM303AGR_Mag_Unified::reset`: the configuration sequence. -/
def reset (h : Header) (d : Driver) (w : World) : Option World :=
  match d.i2c_dev, d.config_a with
  | some _, some config_a =>
    let config_c : Adafruit_BusIO_Register := ⟨h.LSM303AGR_CFG_REG_C, 1⟩
    let reset : Adafruit_BusIO_RegisterBits := ⟨config_a, 1, 5⟩
    let reboot : Adafruit_BusIO_RegisterBits := ⟨config_a, 1, 6⟩
    let mode : Adafruit_BusIO_RegisterBits := ⟨config_a, 1, 0⟩
    -- `data_rate`, the field (config_a, 2, 2), is declared here as well and never used
    let temp_compensation : Adafruit_BusIO_RegisterBits := ⟨config_a, 1, 7⟩
    let bdu : Adafruit_BusIO_RegisterBits := ⟨config_c, 1, 4⟩
    let w := reset.write 1 w
    let w := w.delay 100
    let w := reboot.write 1 w
    let w := w.delay 100
    let w := bdu.write 1 w
    let w := temp_compensation.write 1 w
    let w := mode.write 0x00 w
    some w
  | _, _ => none

/-- Member function `Adafruit_LSM303AGR_Mag_Unified::begin`: opens the transport, checks the
identity register, then configures the device. -/
def begin (h : Header) (d : Driver) (i2c_address : Nat) (w : World) :
    Option (Bool × Driver × World) :=
  let d := { d with i2c_dev := some i2c_address }
  let (ok, w) := w.busBegin i2c_address
  if !ok then
    some (false, d, w.log (.serialText "Failed to init i2c address"))
  else
    let chip_id : Adafruit_BusIO_Register := ⟨h.LSM303AGR_WHO_AM_I, 1⟩
    let (id, w) := chip_id.read w
    if id ≠ h._CHIP_ID then
      let w := w.log (.serialText "chip id is ")
      let (id2, w) := chip_id.read w
      some (false, d, w.log (.serialNumber id2))
    else
      let d := { d with config_a := some ⟨h.LSM303AGR_CFG_REG_A, 1⟩ }
      match reset h d w with
      | none => none
      | some w => some (true, d, w)

/-- Member function `Adafruit_LSM303AGR_Mag_Unified::setDataRate`. The rate is the integer
code of the `lsm303AGRMagRate` value passed. -/
def setDataRate (d : Driver) (rate : Nat) (w : World) : Option World :=
  match d.config_a with
  | none => none
  | some config_a =>
    let data_rate : Adafruit_BusIO_RegisterBits := ⟨config_a, 2, 2⟩
    some (data_rate.write rate w)

/-- Member function `Adafruit_LSM303AGR_Mag_Unified::getDataRate`. The result is the integer
code of the `lsm303AGRMagRate` value returned. -/
def getDataRate (d : Driver) (w : World) : Option (Nat × World) :=
  match d.config_a with
  | none => none
  | some config_a =>
    let data_rate : Adafruit_BusIO_RegisterBits := ⟨config_a, 2, 2⟩
    some (data_rate.read w)

/-- The `float` computed as `(float)raw * lsb * conv`, recorded by its operands:
the raw integer and the decimal values of the two constants. The product is
left unevaluated, since its value is the platform's floating-point result. -/
structure FloatProduct where
  raw : Int
  lsb : ℚ
  conv : ℚ
  deriving DecidableEq

/-- Conversion of an `unsigned long` to `int32_t`: two's complement. -/
def toInt32 (v : Nat) : Int :=
  if v % 2 ^ 32 < 2 ^ 31 then ((v % 2 ^ 32 : Nat) : Int) else ((v % 2 ^ 32 : Nat) : Int) - 2 ^ 32

/-- The part of `sensors_event_t` (library `Adafruit_Sensor`) the driver fills;
every other byte of the event is zero. -/
structure sensors_event_t where
  version : Int
  sensor_id : Int
  type : Int
  timestamp : Int
  magnetic_x : FloatProduct
  magnetic_y : FloatProduct
  magnetic_z : FloatProduct
  deriving DecidableEq

/-- Member function `Adafruit_LSM303AGR_Mag_Unified::getEvent`: reads a sample
and fills the event; each magnetic component is the floating-point product of
the raw value of its axis and the two constants. -/
def getEvent (h : Header) (d : Driver) (w : World) :
    Option (Bool × sensors_event_t × Driver × World) :=
  match read h d w with
  | none => none
  | some (d, w) =>
    some (true,
      { version := h.sizeof_sensors_event_t
        sensor_id := d._sensorID
        type := h.SENSOR_TYPE_MAGNETIC_FIELD
        timestamp := toInt32 w.clock
        magnetic_x := ⟨d.raw.x, h.LSM303AGR_MAG_LSB, h.LSM303AGR_MILLIGAUSS_TO_MICROTESLA⟩
        magnetic_y := ⟨d.raw.y, h.LSM303AGR_MAG_LSB, h.LSM303AGR_MILLIGAUSS_TO_MICROTESLA⟩
        magnetic_z := ⟨d.raw.z, h.LSM303AGR_MAG_LSB, h.LSM303AGR_MILLIGAUSS_TO_MICROTESLA⟩ },
      d, w)

/-- The `sensor_t` descriptor of library `Adafruit_Sensor`; `name` is the
content of the fixed-width character array, one number per byte. -/
structure sensor_t where
  name : List Nat
  version : Int
  sensor_id : Int
  type : Int
  max_value : ℚ
  min_value : ℚ
  resolution : ℚ
  min_delay : Int
  deriving DecidableEq

/-- The bytes of a C string literal, without the terminating NUL. -/
def cString (s : String) : List Nat := s.toList.map Char.toNat

/-- The call `strncpy(dest, src, n)` for `n ≤ dest.length`: the first `n` bytes of `dest`
become the bytes of `src`, followed by NUL bytes where `src` is shorter. -/
def strncpy (dest src : List Nat) (n : Nat) : List Nat :=
  (List.range dest.length).map (fun i => if i < n then src.getD i 0 else dest.getD i 0)

/-- Member function `Adafruit_LSM303AGR_Mag_Unified::getSensor`: fills the descriptor. The
world is passed through untouched. -/
def getSensor (h : Header) (d : Driver) (w : World) : sensor_t × World :=
  -- memset(sensor, 0, sizeof(sensor_t))
  let sensor : sensor_t :=
    { name := List.replicate h.sizeof_name 0, version := 0, sensor_id := 0, type := 0,
      max_value := 0, min_value := 0, resolution := 0, min_delay := 0 }
  let sensor := { sensor with name := strncpy sensor.name (cString "LSM303AGR Mag") (h.sizeof_name - 1) }
  let sensor := { sensor with name := sensor.name.set (h.sizeof_name - 1) 0 }
  let sensor := { sensor with version := 1 }
  let sensor := { sensor with sensor_id := d._sensorID }
  let sensor := { sensor with type := h.SENSOR_TYPE_MAGNETIC_FIELD }
  let sensor := { sensor with min_delay := 0 }
  let sensor := { sensor with max_value := 0 }
  let sensor := { sensor with min_value := 0 }
  let sensor := { sensor with resolution := 0 }
  (sensor, w)

/-- A call of a member function, with its arguments. -/
inductive Call where
  | begin (i2c_address : Nat)
  | reset
  | setDataRate (rate : Nat)
  | getDataRate
  | getEvent
  | getSensor
  deriving DecidableEq, Repr

/-- Effect of one call on driver and world (results are dropped). -/
def step (h : Header) (c : Call) (s : Driver × World) : Option (Driver × World) :=
  match c with
  | .begin a => (begin h s.1 a s.2).map (fun r => (r.2.1, r.2.2))
  | .reset => (reset h s.1 s.2).map (fun w => (s.1, w))
  | .setDataRate r => (setDataRate s.1 r s.2).map (fun w => (s.1, w))
  | .getDataRate => (getDataRate s.1 s.2).map (fun r => (s.1, r.2))
  | .getEvent => (getEvent h s.1 s.2).map (fun r => (r.2.2.1, r.2.2.2))
  | .getSensor => some (s.1, (getSensor h s.1 s.2).2)

/-- Effect of a sequence of calls, first to last. -/
def run (h : Header) : List Call → Driver × World → Option (Driver × World)
  | [], s => some s
  | c :: cs, s => (step h c s).bind (run h cs)

/-- The driver is ready: `begin` has created the I2C device and configuration
register A. -/
def Ready (h : Header) (d : Driver) : Prop :=
  d.i2c_dev.isSome = true ∧ d.config_a = some ⟨h.LSM303AGR_CFG_REG_A, 1⟩

instance (h : Header) (d : Driver) : Decidable (Ready h d) := by
  unfold Ready; infer_instance

/-! ## Concrete data for the examples -/

/-- The constants of the LSM303AGR data sheet and of `Adafruit_Sensor.h`, used
for the worked examples only. -/
def exampleHeader : Header :=
  { LSM303AGR_WHO_AM_I := 0x4F, _CHIP_ID := 0x40, LSM303AGR_CFG_REG_A := 0x60,
    LSM303AGR_CFG_REG_C := 0x62, LSM303AGR_OUTX_L_REG := 0x68,
    LSM303AGR_MAG_LSB := 3 / 2, LSM303AGR_MILLIGAUSS_TO_MICROTESLA := 1 / 10,
    SENSOR_TYPE_MAGNETIC_FIELD := 2, sizeof_sensors_event_t := 36, sizeof_name := 12 }

/-- A device that answers with identity `0x40`, holds `0x03` in configuration
register A (the power-on value), and the sample (100, -200, 300) in its output
registers. -/
def exampleRegs : Nat → Fin 256 := fun r =>
  if r = 0x4F then 0x40 else if r = 0x60 then 0x03
  else if r = 0x68 then 100 else if r = 0x69 then 0
  else if r = 0x6A then 56 else if r = 0x6B then 255
  else if r = 0x6C then 44 else if r = 0x6D then 1 else 0

/-- The example device on a transport that opens. -/
def exampleWorld : World := { openOk := true, regs := exampleRegs, trace := [], clock := 0 }

/-- The example device on a transport that fails to open. -/
def closedWorld : World := { exampleWorld with openOk := false }

/-- A device that answers with the wrong identity `0x33`. -/
def strangerWorld : World :=
  { exampleWorld with regs := fun r => if r = 0x4F then 0x33 else exampleRegs r }

/-- A driver on which `begin` has succeeded. -/
def readyDriver : Driver :=
  { _sensorID := 12345, raw := ⟨0, 0, 0⟩, i2c_dev := some 0x1E, config_a := some ⟨0x60, 1⟩ }


/-! ## Lemmas on the register helpers -/

/-- Reading a one-byte register returns the byte the device holds there. -/
theorem register_read_one (a : Nat) (w : World) :
    (⟨a, 1⟩ : Adafruit_BusIO_Register).read w
      = ((w.regs a).val, w.log (.readRegister a 1)) := by
  simp [Adafruit_BusIO_Register.read, Adafruit_BusIO_Register.readBuffer,
    World.readRegister, u32, List.range_succ]

/-- Writing a one-byte register sends the low byte of the value. -/
theorem register_write_one (a value : Nat) (w : World) :
    (⟨a, 1⟩ : Adafruit_BusIO_Register).write value 1 w
      = w.writeRegister a [value &&& 0xFF] := by
  simp [Adafruit_BusIO_Register.write, List.range_succ]

/-- A bit-field write on a one-byte register is one read followed by one write
of the merged byte. -/
theorem bits_write_one (a bits shift data : Nat) (w : World) :
    (⟨⟨a, 1⟩, bits, shift⟩ : Adafruit_BusIO_RegisterBits).write data w
      = (w.log (.readRegister a 1)).writeRegister a
          [mergeField bits shift (w.regs a).val data &&& 0xFF] := by
  simp [Adafruit_BusIO_RegisterBits.write, register_read_one, register_write_one]

/-- A bit-field read on a one-byte register is one read. -/
theorem bits_read_one (a bits shift : Nat) (w : World) :
    (⟨⟨a, 1⟩, bits, shift⟩ : Adafruit_BusIO_RegisterBits).read w
      = (extractField bits shift (w.regs a).val, w.log (.readRegister a 1)) := by
  simp [Adafruit_BusIO_RegisterBits.read, register_read_one]

/-- Registers after a one-byte write. -/
theorem regs_writeRegister_one (w : World) (a v r : Nat) :
    (w.writeRegister a [v]).regs r = if r = a then toByte v else w.regs r := by
  simp only [World.writeRegister, List.length_singleton]
  by_cases hr : r = a
  · subst hr; simp
  · have : ¬ (a ≤ r ∧ r < a + 1) := by omega
    simp [this, hr]

set_option maxRecDepth 100000 in
/-- Setting the one-bit fields of `reset` on a byte. -/
theorem mergeField_set_bits : ∀ v < 256,
    mergeField 1 5 v 1 &&& 0xFF = v ||| 0x20 ∧ mergeField 1 6 v 1 &&& 0xFF = v ||| 0x40 ∧
    mergeField 1 4 v 1 &&& 0xFF = v ||| 0x10 ∧ mergeField 1 7 v 1 &&& 0xFF = v ||| 0x80 ∧
    mergeField 1 0 v 0 &&& 0xFF = v &&& 0xFE := by
  decide

/-- The function `reset` returns on a driver whose pointers are set. -/
theorem reset_isSome (h : Header) (d : Driver) (w : World) (a : Nat)
    (r : Adafruit_BusIO_Register) (hi : d.i2c_dev = some a) (hc : d.config_a = some r) :
    ∃ w', reset h d w = some w' := by
  simp [reset, hi, hc]

/-! ## Initialisation -/

/-- Result of `begin` on a transport that does not open. -/
theorem begin_closed (h : Header) (d : Driver) (i2c_address : Nat) (w : World)
    (hop : w.openOk = false) :
    begin h d i2c_address w = some (false, { d with i2c_dev := some i2c_address },
      (w.log (.busBegin i2c_address)).log (.serialText "Failed to init i2c address")) := by
  simp [begin, World.busBegin, hop]

/-- Result of `begin` on a device with a foreign identity byte. -/
theorem begin_stranger (h : Header) (d : Driver) (i2c_address : Nat) (w : World)
    (hop : w.openOk = true) (hid : (w.regs h.LSM303AGR_WHO_AM_I).val ≠ h._CHIP_ID) :
    begin h d i2c_address w = some (false, { d with i2c_dev := some i2c_address },
      ((((w.log (.busBegin i2c_address)).log (.readRegister h.LSM303AGR_WHO_AM_I 1)).log
        (.serialText "chip id is ")).log (.readRegister h.LSM303AGR_WHO_AM_I 1)).log
        (.serialNumber (w.regs h.LSM303AGR_WHO_AM_I).val)) := by
  have hid' : (w.log (.busBegin i2c_address)).regs h.LSM303AGR_WHO_AM_I
      = w.regs h.LSM303AGR_WHO_AM_I := rfl
  simp only [begin, World.busBegin, hop, register_read_one, hid']
  simp only [hid, ne_eq, not_false_eq_true, Bool.not_true, Bool.false_eq_true, if_false, if_true]
  rfl

/-- Result of `begin` on the expected device: the driver's pointers are set and `reset` runs. -/
theorem begin_expected (h : Header) (d : Driver) (i2c_address : Nat) (w : World)
    (hop : w.openOk = true) (hid : (w.regs h.LSM303AGR_WHO_AM_I).val = h._CHIP_ID) :
    begin h d i2c_address w =
      (reset h { d with i2c_dev := some i2c_address,
                        config_a := some ⟨h.LSM303AGR_CFG_REG_A, 1⟩ }
        ((w.log (.busBegin i2c_address)).log (.readRegister h.LSM303AGR_WHO_AM_I 1))).map
        (fun w' => (true, { d with i2c_dev := some i2c_address,
                                   config_a := some ⟨h.LSM303AGR_CFG_REG_A, 1⟩ }, w')) := by
  have hid' : (w.log (.busBegin i2c_address)).regs h.LSM303AGR_WHO_AM_I
      = w.regs h.LSM303AGR_WHO_AM_I := rfl
  simp only [begin, World.busBegin, hop, register_read_one, hid', hid]
  simp only [ne_eq, not_true_eq_false, Bool.not_true, Bool.false_eq_true, if_false]
  cases reset h _ _ <;> rfl

/-- C1: `begin` always returns, and it returns `true` exactly when the transport
opens and the byte held by the identity register equals `_CHIP_ID`; so with an
open transport every other identity byte gives `false`. A `true` result leaves
the driver ready. -/
theorem begin_true_iff (h : Header) (d : Driver) (i2c_address : Nat) (w : World) :
    ∃ ok d' w', begin h d i2c_address w = some (ok, d', w') ∧
      (ok = true ↔ (w.openOk = true ∧ (w.regs h.LSM303AGR_WHO_AM_I).val = h._CHIP_ID)) ∧
      (w.openOk = true → (w.regs h.LSM303AGR_WHO_AM_I).val ≠ h._CHIP_ID → ok = false) ∧
      (ok = true → Ready h d') := by
  cases hop : w.openOk with
  | false =>
    exact ⟨false, _, _, begin_closed h d i2c_address w hop, by simp, by simp, by simp⟩
  | true =>
    by_cases hid : (w.regs h.LSM303AGR_WHO_AM_I).val = h._CHIP_ID
    · obtain ⟨w', hw'⟩ := reset_isSome h
        { d with i2c_dev := some i2c_address, config_a := some ⟨h.LSM303AGR_CFG_REG_A, 1⟩ }
        ((w.log (.busBegin i2c_address)).log (.readRegister h.LSM303AGR_WHO_AM_I 1))
        i2c_address ⟨h.LSM303AGR_CFG_REG_A, 1⟩ rfl rfl
      refine ⟨true, { d with i2c_dev := some i2c_address,
                             config_a := some ⟨h.LSM303AGR_CFG_REG_A, 1⟩ }, w', ?_,
        by simp [hid], by simp [hid], fun _ => ⟨rfl, rfl⟩⟩
      rw [begin_expected h d i2c_address w hop hid, hw']
      rfl
    · exact ⟨false, _, _, begin_stranger h d i2c_address w hop hid, by simp [hid], by simp,
        by simp⟩

/-- C2: a failing `begin` leaves the device unconfigured. When the transport
does not open, `begin` returns `false` having done no register read and no
register write. When the transport opens and the identity byte differs from
`_CHIP_ID`, it returns `false` having done no register write, and its only
register reads are the two one-byte reads of the identity register. In both
cases every register of the device keeps its content and `config_a` is not set. -/
theorem begin_failure_frame (h : Header) (d : Driver) (i2c_address : Nat) (w : World) :
    (w.openOk = false →
      ∃ d' w', begin h d i2c_address w = some (false, d', w') ∧
        w'.trace = w.trace ++
          [Event.busBegin i2c_address, Event.serialText "Failed to init i2c address"] ∧
        (∀ e ∈ w'.trace.drop w.trace.length, e.isRead = false ∧ e.isWrite = false) ∧
        w'.regs = w.regs ∧ d'.config_a = d.config_a) ∧
    (w.openOk = true → (w.regs h.LSM303AGR_WHO_AM_I).val ≠ h._CHIP_ID →
      ∃ d' w', begin h d i2c_address w = some (false, d', w') ∧
        w'.trace = w.trace ++
          [Event.busBegin i2c_address, Event.readRegister h.LSM303AGR_WHO_AM_I 1,
           Event.serialText "chip id is ", Event.readRegister h.LSM303AGR_WHO_AM_I 1,
           Event.serialNumber (w.regs h.LSM303AGR_WHO_AM_I).val] ∧
        (∀ e ∈ w'.trace.drop w.trace.length,
          e.isWrite = false ∧ (e.isRead = true → e = Event.readRegister h.LSM303AGR_WHO_AM_I 1)) ∧
        w'.regs = w.regs ∧ d'.config_a = d.config_a) := by
  constructor
  · intro hop
    refine ⟨_, _, begin_closed h d i2c_address w hop, ?_, ?_, rfl, rfl⟩
    · simp [World.log]
    · simp [World.log, Event.isRead, Event.isWrite]
  · intro hop hid
    refine ⟨_, _, begin_stranger h d i2c_address w hop hid, ?_, ?_, rfl, rfl⟩
    · simp [World.log]
    · simp [World.log, Event.isRead, Event.isWrite]

/-- Witness of C2 on the example device: once on a transport that fails to
open, once with a device answering `0x33` where `0x40` is expected. -/
theorem begin_failure_frame_witness :
    (∃ d' w', begin exampleHeader (Adafruit_LSM303AGR_Mag_Unified 5) 0x1E closedWorld
          = some (false, d', w') ∧
        w'.trace = closedWorld.trace ++
          [Event.busBegin 0x1E, Event.serialText "Failed to init i2c address"] ∧
        (∀ e ∈ w'.trace.drop closedWorld.trace.length, e.isRead = false ∧ e.isWrite = false) ∧
        w'.regs = closedWorld.regs ∧
        d'.config_a = (Adafruit_LSM303AGR_Mag_Unified 5).config_a) ∧
    (∃ d' w', begin exampleHeader (Adafruit_LSM303AGR_Mag_Unified 5) 0x1E strangerWorld
          = some (false, d', w') ∧
        w'.trace = strangerWorld.trace ++
          [Event.busBegin 0x1E, Event.readRegister exampleHeader.LSM303AGR_WHO_AM_I 1,
           Event.serialText "chip id is ", Event.readRegister exampleHeader.LSM303AGR_WHO_AM_I 1,
           Event.serialNumber (strangerWorld.regs exampleHeader.LSM303AGR_WHO_AM_I).val] ∧
        (∀ e ∈ w'.trace.drop strangerWorld.trace.length,
          e.isWrite = false ∧
            (e.isRead = true → e = Event.readRegister exampleHeader.LSM303AGR_WHO_AM_I 1)) ∧
        w'.regs = strangerWorld.regs ∧
        d'.config_a = (Adafruit_LSM303AGR_Mag_Unified 5).config_a) :=
  ⟨(begin_failure_frame exampleHeader (Adafruit_LSM303AGR_Mag_Unified 5) 0x1E closedWorld).1 rfl,
   (begin_failure_frame exampleHeader (Adafruit_LSM303AGR_Mag_Unified 5) 0x1E strangerWorld).2
     rfl (by decide)⟩


/-! ## Configuration -/

/-- Registers after a bit-field write on a one-byte register: the register
holds the merged byte, every other register keeps its content. -/
theorem bits_write_one_regs (a bits shift data : Nat) (w : World) (r : Nat) :
    ((⟨⟨a, 1⟩, bits, shift⟩ : Adafruit_BusIO_RegisterBits).write data w).regs r
      = if r = a then toByte (mergeField bits shift (w.regs a).val data &&& 0xFF)
        else w.regs r := by
  rw [bits_write_one, regs_writeRegister_one]
  rfl

/-- Log after a bit-field write on a one-byte register: one read, one write. -/
theorem bits_write_one_trace (a bits shift data : Nat) (w : World) :
    ((⟨⟨a, 1⟩, bits, shift⟩ : Adafruit_BusIO_RegisterBits).write data w).trace
      = w.trace ++ [Event.readRegister a 1,
          Event.writeRegister a [mergeField bits shift (w.regs a).val data &&& 0xFF]] := by
  rw [bits_write_one]
  simp [World.writeRegister, World.log]

set_option maxRecDepth 100000 in
/-- The bytes written to configuration register A by the four bit-field writes
of `reset`, starting from the byte `b`. -/
theorem reset_chain : ∀ b : Fin 256,
    mergeField 1 5 b.val 1 &&& 0xFF = b.val ||| 0x20 ∧
    mergeField 1 6 (toByte (b.val ||| 0x20)).val 1 &&& 0xFF = b.val ||| 0x60 ∧
    mergeField 1 7 (toByte (b.val ||| 0x60)).val 1 &&& 0xFF = b.val ||| 0xE0 ∧
    mergeField 1 0 (toByte (b.val ||| 0xE0)).val 0 &&& 0xFF = (b.val ||| 0xE0) &&& 0xFE ∧
    mergeField 1 4 b.val 1 &&& 0xFF = b.val ||| 0x10 := by
  decide

set_option maxRecDepth 100000 in
/-- The bits that `reset` sets and clears, on the bytes it writes. -/
theorem reset_chain_bits : ∀ b : Fin 256,
    (b.val ||| 0x20).testBit 5 = true ∧ (b.val ||| 0x60).testBit 6 = true ∧
    (b.val ||| 0x10).testBit 4 = true ∧ (b.val ||| 0xE0).testBit 7 = true ∧
    ((b.val ||| 0xE0) &&& 0xFE).testBit 0 = false := by
  decide

set_option maxRecDepth 100000 in
/-- The bytes `reset` leaves in registers A and C fit a byte, and bit 1 of
register A is the bit 1 it had. -/
theorem reset_final_bytes : ∀ b : Fin 256,
    (toByte ((b.val ||| 0xE0) &&& 0xFE)).val = (b.val ||| 0xE0) &&& 0xFE ∧
    ((b.val ||| 0xE0) &&& 0xFE).testBit 1 = b.val.testBit 1 ∧
    (toByte (b.val ||| 0x10)).val = b.val ||| 0x10 := by
  decide

set_option maxRecDepth 100000 in
/-- None of the bit-field writes of `reset` changes the value of the two-bit
field at bits 2-3. -/
theorem reset_steps_keep_rate : ∀ b : Fin 256,
    extractField 2 2 (toByte (mergeField 1 5 b.val 1 &&& 0xFF)).val = extractField 2 2 b.val ∧
    extractField 2 2 (toByte (mergeField 1 6 b.val 1 &&& 0xFF)).val = extractField 2 2 b.val ∧
    extractField 2 2 (toByte (mergeField 1 4 b.val 1 &&& 0xFF)).val = extractField 2 2 b.val ∧
    extractField 2 2 (toByte (mergeField 1 7 b.val 1 &&& 0xFF)).val = extractField 2 2 b.val ∧
    extractField 2 2 (toByte (mergeField 1 0 b.val 0 &&& 0xFF)).val = extractField 2 2 b.val := by
  decide

set_option maxRecDepth 100000 in
/-- Writing the code `q` into the two-bit field at bits 2-3 of the byte `b`,
and reading the field back. -/
theorem rate_field : ∀ b : Fin 256, ∀ q : Fin 4,
    mergeField 2 2 b.val q.val &&& 0xFF = (b.val &&& 0xF3) ||| (q.val <<< 2) ∧
    (toByte ((b.val &&& 0xF3) ||| (q.val <<< 2))).val = (b.val &&& 0xF3) ||| (q.val <<< 2) ∧
    extractField 2 2 ((b.val &&& 0xF3) ||| (q.val <<< 2)) = q.val ∧
    ((b.val &&& 0xF3) ||| (q.val <<< 2)) &&& 0xF3 = b.val &&& 0xF3 := by
  decide

/-- Only the two low bits of the data reach a two-bit field. -/
theorem mergeField_two_mod (shift val data : Nat) :
    mergeField 2 shift val data = mergeField 2 shift val (data % 4) := by
  have h3 : u32 ((1 <<< 2) - 1) = 2 ^ 2 - 1 := by decide
  have key : ∀ n, u32 n &&& (2 ^ 2 - 1) = n % 4 := by
    intro n
    rw [Nat.and_pow_two_sub_one_eq_mod]
    unfold u32
    omega
  unfold mergeField
  simp only [h3, key]
  congr 3
  omega

/-- Two bytes that agree under the mask `0xF3` agree on every bit but 2 and 3. -/
theorem testBit_eq_of_mask (x y : Fin 256) (hm : x.val &&& 0xF3 = y.val &&& 0xF3)
    (i : Nat) (h2 : i ≠ 2) (h3 : i ≠ 3) : x.val.testBit i = y.val.testBit i := by
  by_cases hi : i < 8
  · have hb : Nat.testBit 0xF3 i = true := by
      interval_cases i <;> first | rfl | contradiction
    have := congrArg (fun n => Nat.testBit n i) hm
    simpa [Nat.testBit_and, hb] using this
  · have hp : 256 ≤ 2 ^ i := by
      calc 256 = 2 ^ 8 := by norm_num
        _ ≤ 2 ^ i := Nat.pow_le_pow_right (by norm_num) (by omega)
    rw [Nat.testBit_lt_two_pow (lt_of_lt_of_le x.isLt hp),
      Nat.testBit_lt_two_pow (lt_of_lt_of_le y.isLt hp)]

/-- The whole trace of `reset` on a ready driver, for every register content:
set bit 5 of register A, wait 100, set bit 6 of register A, wait 100, set bit 4
of register C, set bit 7 of register A, clear bit 0 of register A. Each step is
one read of the register followed by one write of the byte read with the bit
changed; there are five writes and two delays. The fifth write clears bit 0
only: bit 1, the upper bit of the operating mode, is written back as read. -/
theorem reset_writes_in_order (h : Header) (d : Driver) (w : World) (hd : Ready h d)
    (hAC : h.LSM303AGR_CFG_REG_A ≠ h.LSM303AGR_CFG_REG_C) :
    ∃ w', reset h d w = some w' ∧
      w'.trace = w.trace ++
        [Event.readRegister h.LSM303AGR_CFG_REG_A 1,
         Event.writeRegister h.LSM303AGR_CFG_REG_A [(w.regs h.LSM303AGR_CFG_REG_A).val ||| 0x20],
         Event.delay 100,
         Event.readRegister h.LSM303AGR_CFG_REG_A 1,
         Event.writeRegister h.LSM303AGR_CFG_REG_A [(w.regs h.LSM303AGR_CFG_REG_A).val ||| 0x60],
         Event.delay 100,
         Event.readRegister h.LSM303AGR_CFG_REG_C 1,
         Event.writeRegister h.LSM303AGR_CFG_REG_C [(w.regs h.LSM303AGR_CFG_REG_C).val ||| 0x10],
         Event.readRegister h.LSM303AGR_CFG_REG_A 1,
         Event.writeRegister h.LSM303AGR_CFG_REG_A [(w.regs h.LSM303AGR_CFG_REG_A).val ||| 0xE0],
         Event.readRegister h.LSM303AGR_CFG_REG_A 1,
         Event.writeRegister h.LSM303AGR_CFG_REG_A
           [((w.regs h.LSM303AGR_CFG_REG_A).val ||| 0xE0) &&& 0xFE]] ∧
      (w'.trace.drop w.trace.length).filter (fun e => e.isWrite || e.isDelay) =
        [Event.writeRegister h.LSM303AGR_CFG_REG_A [(w.regs h.LSM303AGR_CFG_REG_A).val ||| 0x20],
         Event.delay 100,
         Event.writeRegister h.LSM303AGR_CFG_REG_A [(w.regs h.LSM303AGR_CFG_REG_A).val ||| 0x60],
         Event.delay 100,
         Event.writeRegister h.LSM303AGR_CFG_REG_C [(w.regs h.LSM303AGR_CFG_REG_C).val ||| 0x10],
         Event.writeRegister h.LSM303AGR_CFG_REG_A [(w.regs h.LSM303AGR_CFG_REG_A).val ||| 0xE0],
         Event.writeRegister h.LSM303AGR_CFG_REG_A
           [((w.regs h.LSM303AGR_CFG_REG_A).val ||| 0xE0) &&& 0xFE]] ∧
      ((w.regs h.LSM303AGR_CFG_REG_A).val ||| 0x20).testBit 5 = true ∧
      ((w.regs h.LSM303AGR_CFG_REG_A).val ||| 0x60).testBit 6 = true ∧
      ((w.regs h.LSM303AGR_CFG_REG_C).val ||| 0x10).testBit 4 = true ∧
      ((w.regs h.LSM303AGR_CFG_REG_A).val ||| 0xE0).testBit 7 = true ∧
      (((w.regs h.LSM303AGR_CFG_REG_A).val ||| 0xE0) &&& 0xFE).testBit 0 = false := by
  obtain ⟨hi, hc⟩ := hd
  obtain ⟨x, hx⟩ := Option.isSome_iff_exists.mp hi
  obtain ⟨h1, h2, h3, h4, -⟩ := reset_chain (w.regs h.LSM303AGR_CFG_REG_A)
  have h5 := (reset_chain (w.regs h.LSM303AGR_CFG_REG_C)).2.2.2.2
  obtain ⟨b5, b6, -, b7, b0⟩ := reset_chain_bits (w.regs h.LSM303AGR_CFG_REG_A)
  have b4 := (reset_chain_bits (w.regs h.LSM303AGR_CFG_REG_C)).2.2.1
  have ht : ∀ w', reset h d w = some w' → w'.trace = w.trace ++
        [Event.readRegister h.LSM303AGR_CFG_REG_A 1,
         Event.writeRegister h.LSM303AGR_CFG_REG_A [(w.regs h.LSM303AGR_CFG_REG_A).val ||| 0x20],
         Event.delay 100,
         Event.readRegister h.LSM303AGR_CFG_REG_A 1,
         Event.writeRegister h.LSM303AGR_CFG_REG_A [(w.regs h.LSM303AGR_CFG_REG_A).val ||| 0x60],
         Event.delay 100,
         Event.readRegister h.LSM303AGR_CFG_REG_C 1,
         Event.writeRegister h.LSM303AGR_CFG_REG_C [(w.regs h.LSM303AGR_CFG_REG_C).val ||| 0x10],
         Event.readRegister h.LSM303AGR_CFG_REG_A 1,
         Event.writeRegister h.LSM303AGR_CFG_REG_A [(w.regs h.LSM303AGR_CFG_REG_A).val ||| 0xE0],
         Event.readRegister h.LSM303AGR_CFG_REG_A 1,
         Event.writeRegister h.LSM303AGR_CFG_REG_A
           [((w.regs h.LSM303AGR_CFG_REG_A).val ||| 0xE0) &&& 0xFE]] := by
    intro w' hw'
    simp only [reset, hx, hc, Option.some.injEq] at hw'
    subst hw'
    simp only [bits_write_one_trace, bits_write_one_regs, World.delay, if_true, hAC,
      Ne.symm hAC, if_false, h1, h2, h3, h4, h5, List.append_assoc, List.cons_append,
      List.nil_append]
  obtain ⟨w', hw'⟩ := reset_isSome h d w x _ hx hc
  refine ⟨w', hw', ht w' hw', ?_, b5, b6, b4, b7, b0⟩
  rw [ht w' hw', List.drop_left]
  simp [List.filter, Event.isWrite, Event.isDelay]

/-- The world after `reset` on a ready driver, as the chain of its five
bit-field writes and two delays. -/
theorem reset_ready (h : Header) (d : Driver) (w : World) (hd : Ready h d) :
    reset h d w = some
      ((⟨⟨h.LSM303AGR_CFG_REG_A, 1⟩, 1, 0⟩ : Adafruit_BusIO_RegisterBits).write 0
        ((⟨⟨h.LSM303AGR_CFG_REG_A, 1⟩, 1, 7⟩ : Adafruit_BusIO_RegisterBits).write 1
          ((⟨⟨h.LSM303AGR_CFG_REG_C, 1⟩, 1, 4⟩ : Adafruit_BusIO_RegisterBits).write 1
            (((⟨⟨h.LSM303AGR_CFG_REG_A, 1⟩, 1, 6⟩ : Adafruit_BusIO_RegisterBits).write 1
              (((⟨⟨h.LSM303AGR_CFG_REG_A, 1⟩, 1, 5⟩ : Adafruit_BusIO_RegisterBits).write 1
                w).delay 100)).delay 100)))) := by
  obtain ⟨hi, hc⟩ := hd
  obtain ⟨x, hx⟩ := Option.isSome_iff_exists.mp hi
  simp only [reset, hx, hc]

/-- Result of `getDataRate` on a ready driver: one read of register A, from which bits
2-3 are extracted. -/
theorem getDataRate_ready (h : Header) (d : Driver) (w : World) (hd : Ready h d) :
    getDataRate d w = some (extractField 2 2 (w.regs h.LSM303AGR_CFG_REG_A).val,
      w.log (.readRegister h.LSM303AGR_CFG_REG_A 1)) := by
  simp only [getDataRate, hd.2, bits_read_one]

/-- Result of `setDataRate` on a ready driver: a write to the field at bits 2-3 of register A. -/
theorem setDataRate_ready (h : Header) (d : Driver) (w : World) (rate : Nat) (hd : Ready h d) :
    setDataRate d rate w = some
      ((⟨⟨h.LSM303AGR_CFG_REG_A, 1⟩, 2, 2⟩ : Adafruit_BusIO_RegisterBits).write rate w) := by
  simp only [setDataRate, hd.2]

/-- Registers after `reset` on a ready driver, for every content: register A
holds its previous byte with bits 5, 6 and 7 set and bit 0 cleared, so bit 1
keeps whatever value it had; register C holds its previous byte with bit 4
set; every other register keeps its content. -/
theorem reset_final_registers (h : Header) (d : Driver) (w : World) (hd : Ready h d)
    (hAC : h.LSM303AGR_CFG_REG_A ≠ h.LSM303AGR_CFG_REG_C) :
    ∃ w', reset h d w = some w' ∧
      (w'.regs h.LSM303AGR_CFG_REG_A).val
        = ((w.regs h.LSM303AGR_CFG_REG_A).val ||| 0xE0) &&& 0xFE ∧
      (w'.regs h.LSM303AGR_CFG_REG_C).val = (w.regs h.LSM303AGR_CFG_REG_C).val ||| 0x10 ∧
      (w'.regs h.LSM303AGR_CFG_REG_A).val.testBit 1
        = (w.regs h.LSM303AGR_CFG_REG_A).val.testBit 1 ∧
      (∀ r, r ≠ h.LSM303AGR_CFG_REG_A → r ≠ h.LSM303AGR_CFG_REG_C → w'.regs r = w.regs r) := by
  obtain ⟨h1, h2, h3, h4, -⟩ := reset_chain (w.regs h.LSM303AGR_CFG_REG_A)
  have h5 := (reset_chain (w.regs h.LSM303AGR_CFG_REG_C)).2.2.2.2
  obtain ⟨t1, t2, t3⟩ := reset_final_bytes (w.regs h.LSM303AGR_CFG_REG_A)
  have hA : ((⟨⟨h.LSM303AGR_CFG_REG_A, 1⟩, 1, 0⟩ : Adafruit_BusIO_RegisterBits).write 0
        ((⟨⟨h.LSM303AGR_CFG_REG_A, 1⟩, 1, 7⟩ : Adafruit_BusIO_RegisterBits).write 1
          ((⟨⟨h.LSM303AGR_CFG_REG_C, 1⟩, 1, 4⟩ : Adafruit_BusIO_RegisterBits).write 1
            (((⟨⟨h.LSM303AGR_CFG_REG_A, 1⟩, 1, 6⟩ : Adafruit_BusIO_RegisterBits).write 1
              (((⟨⟨h.LSM303AGR_CFG_REG_A, 1⟩, 1, 5⟩ : Adafruit_BusIO_RegisterBits).write 1
                w).delay 100)).delay 100)))).regs h.LSM303AGR_CFG_REG_A
      = toByte (((w.regs h.LSM303AGR_CFG_REG_A).val ||| 0xE0) &&& 0xFE) := by
    simp only [bits_write_one_regs, World.delay, if_true, hAC, if_false, h1, h2, h3, h4]
  refine ⟨_, reset_ready h d w hd, ?_, ?_, ?_, ?_⟩
  · rw [hA, t1]
  · simp only [bits_write_one_regs, World.delay, if_true, Ne.symm hAC, if_false, h5]
    exact (reset_final_bytes (w.regs h.LSM303AGR_CFG_REG_C)).2.2
  · rw [hA, t1, t2]
  · intro r hrA hrC
    simp only [bits_write_one_regs, World.delay, hrA, hrC, if_false]

/-- C7, evaluated on the code: on the example device, whose configuration
register A holds `0x03`, `reset` writes in the claimed order and with the two
delays, but the byte of its fifth write is `0xE2`: the mode field at bits 0-1
of that byte is 2, not 0, and its bit 1 is set. Only bit 0 was cleared. -/
theorem reset_fifth_write_keeps_mode_bit :
    ∃ w', reset exampleHeader readyDriver exampleWorld = some w' ∧
      w'.trace =
        [Event.readRegister 0x60 1, Event.writeRegister 0x60 [0x23], Event.delay 100,
         Event.readRegister 0x60 1, Event.writeRegister 0x60 [0x63], Event.delay 100,
         Event.readRegister 0x62 1, Event.writeRegister 0x62 [0x10],
         Event.readRegister 0x60 1, Event.writeRegister 0x60 [0xE3],
         Event.readRegister 0x60 1, Event.writeRegister 0x60 [0xE2]] ∧
      w'.trace.getLast? = some (Event.writeRegister 0x60 [0xE2]) ∧
      extractField 2 0 0xE2 = 2 ∧ Nat.testBit 0xE2 1 = true ∧ Nat.testBit 0xE2 0 = false := by
  refine ⟨_, reset_ready exampleHeader readyDriver exampleWorld (by decide), ?_⟩
  decide

/-- C9, evaluated on the code: with `0x03` in configuration register A (both
mode bits set), `reset` leaves `0xE2` there. Bit 0 is clear, bit 1 is still
set, and the two-bit field at bits 0-1 reads 2, not 0. -/
theorem reset_leaves_mode_bit_one :
    ∃ w', reset exampleHeader readyDriver exampleWorld = some w' ∧
      (exampleWorld.regs 0x60).val = 0x03 ∧
      (w'.regs 0x60).val = 0xE2 ∧
      (w'.regs 0x60).val.testBit 0 = false ∧
      (w'.regs 0x60).val.testBit 1 = true ∧
      extractField 2 0 (w'.regs 0x60).val = 2 := by
  refine ⟨_, reset_ready exampleHeader readyDriver exampleWorld (by decide), ?_⟩
  decide

/-- C10: on a ready driver, `reset` returns and the two-bit field at bits 2-3
of configuration register A has the same value after it as before it, so
`getDataRate` returns the same rate before and after. -/
theorem reset_keeps_data_rate (h : Header) (d : Driver) (w : World) (hd : Ready h d) :
    ∃ w' r w1 w2, reset h d w = some w' ∧
      getDataRate d w = some (r, w1) ∧ getDataRate d w' = some (r, w2) ∧
      r = extractField 2 2 (w.regs h.LSM303AGR_CFG_REG_A).val ∧
      extractField 2 2 (w'.regs h.LSM303AGR_CFG_REG_A).val
        = extractField 2 2 (w.regs h.LSM303AGR_CFG_REG_A).val := by
  have key : ∀ w', reset h d w = some w' →
      extractField 2 2 (w'.regs h.LSM303AGR_CFG_REG_A).val
        = extractField 2 2 (w.regs h.LSM303AGR_CFG_REG_A).val := by
    intro w' hw'
    rw [reset_ready h d w hd, Option.some.injEq] at hw'
    subst hw'
    have k5 := fun b => (reset_steps_keep_rate b).1
    have k6 := fun b => (reset_steps_keep_rate b).2.1
    have k4 := fun b => (reset_steps_keep_rate b).2.2.1
    have k7 := fun b => (reset_steps_keep_rate b).2.2.2.1
    have k0 := fun b => (reset_steps_keep_rate b).2.2.2.2
    by_cases hAC : h.LSM303AGR_CFG_REG_A = h.LSM303AGR_CFG_REG_C
    · simp only [← hAC, bits_write_one_regs, World.delay, if_true, k5, k6, k4, k7, k0]
    · simp only [bits_write_one_regs, World.delay, if_true, hAC, if_false, k5, k6, k7, k0]
  obtain ⟨w', hw'⟩ : ∃ w', reset h d w = some w' := ⟨_, reset_ready h d w hd⟩
  have h2 := getDataRate_ready h d w' hd
  rw [key w' hw'] at h2
  exact ⟨w', _, _, _, hw', getDataRate_ready h d w hd, h2, rfl, key w' hw'⟩

/-- Witness of C10 on the example device (rate field 0 in `0x03` and in `0xE2`). -/
theorem reset_keeps_data_rate_witness :
    Ready exampleHeader readyDriver ∧
    ∃ w' r w1 w2, reset exampleHeader readyDriver exampleWorld = some w' ∧
      getDataRate readyDriver exampleWorld = some (r, w1) ∧
      getDataRate readyDriver w' = some (r, w2) ∧
      r = extractField 2 2 (exampleWorld.regs exampleHeader.LSM303AGR_CFG_REG_A).val ∧
      extractField 2 2 (w'.regs exampleHeader.LSM303AGR_CFG_REG_A).val
        = extractField 2 2 (exampleWorld.regs exampleHeader.LSM303AGR_CFG_REG_A).val :=
  ⟨by decide, reset_keeps_data_rate exampleHeader readyDriver exampleWorld (by decide)⟩

/-- C3: on a ready driver and for every content of configuration register A,
`setDataRate R` with a rate code `R` in 0..3 followed at once by `getDataRate`
returns `R`. The write is a read-modify-write of register A that replaces
bits 2-3 by `R`; the read extracts the same two bits. -/
theorem setDataRate_getDataRate (h : Header) (d : Driver) (w : World) (R : Nat)
    (hd : Ready h d) (hR : R < 4) :
    ∃ w1 w2, setDataRate d R w = some w1 ∧ getDataRate d w1 = some (R, w2) ∧
      (w1.regs h.LSM303AGR_CFG_REG_A).val
        = ((w.regs h.LSM303AGR_CFG_REG_A).val &&& 0xF3) ||| (R <<< 2) ∧
      w2.trace = w.trace ++
        [Event.readRegister h.LSM303AGR_CFG_REG_A 1,
         Event.writeRegister h.LSM303AGR_CFG_REG_A
           [((w.regs h.LSM303AGR_CFG_REG_A).val &&& 0xF3) ||| (R <<< 2)],
         Event.readRegister h.LSM303AGR_CFG_REG_A 1] := by
  obtain ⟨f1, f2, f3, -⟩ := rate_field (w.regs h.LSM303AGR_CFG_REG_A) ⟨R, hR⟩
  simp only at f1 f2 f3
  have hreg : (((⟨⟨h.LSM303AGR_CFG_REG_A, 1⟩, 2, 2⟩ : Adafruit_BusIO_RegisterBits).write R
      w).regs h.LSM303AGR_CFG_REG_A).val
        = ((w.regs h.LSM303AGR_CFG_REG_A).val &&& 0xF3) ||| (R <<< 2) := by
    simp only [bits_write_one_regs, if_true, f1, f2]
  have hget := getDataRate_ready h d
    ((⟨⟨h.LSM303AGR_CFG_REG_A, 1⟩, 2, 2⟩ : Adafruit_BusIO_RegisterBits).write R w) hd
  rw [hreg, f3] at hget
  refine ⟨_, _, setDataRate_ready h d w R hd, hget, ?_, ?_⟩
  · simp only [bits_write_one_regs, if_true, f1, f2]
  · simp only [World.log, bits_write_one_trace, f1, List.append_assoc, List.cons_append,
      List.nil_append]

/-- Witness of C3: rate code 2 on the example device. -/
theorem setDataRate_getDataRate_witness :
    Ready exampleHeader readyDriver ∧ 2 < 4 ∧
    ∃ w1 w2, setDataRate readyDriver 2 exampleWorld = some w1 ∧
      getDataRate readyDriver w1 = some (2, w2) ∧
      (w1.regs 0x60).val = 0x0B ∧
      w2.trace = [Event.readRegister 0x60 1, Event.writeRegister 0x60 [0x0B],
        Event.readRegister 0x60 1] :=
  ⟨by decide, by decide,
   setDataRate_getDataRate exampleHeader readyDriver exampleWorld 2 (by decide) (by decide)⟩

/-- C8: on a ready driver, for every content of configuration register A and
every rate value passed, `setDataRate` does one read and one write, both of
register A; every other register keeps its content, and in register A every
bit other than bits 2 and 3 keeps its value. -/
theorem setDataRate_frame (h : Header) (d : Driver) (w : World) (rate : Nat)
    (hd : Ready h d) :
    ∃ w', setDataRate d rate w = some w' ∧
      w'.trace = w.trace ++
        [Event.readRegister h.LSM303AGR_CFG_REG_A 1,
         Event.writeRegister h.LSM303AGR_CFG_REG_A
           [((w.regs h.LSM303AGR_CFG_REG_A).val &&& 0xF3) ||| ((rate % 4) <<< 2)]] ∧
      (∀ r, r ≠ h.LSM303AGR_CFG_REG_A → w'.regs r = w.regs r) ∧
      (w'.regs h.LSM303AGR_CFG_REG_A).val &&& 0xF3
        = (w.regs h.LSM303AGR_CFG_REG_A).val &&& 0xF3 ∧
      (∀ i, i ≠ 2 → i ≠ 3 →
        (w'.regs h.LSM303AGR_CFG_REG_A).val.testBit i
          = (w.regs h.LSM303AGR_CFG_REG_A).val.testBit i) := by
  obtain ⟨f1, f2, -, f4⟩ :=
    rate_field (w.regs h.LSM303AGR_CFG_REG_A) ⟨rate % 4, Nat.mod_lt _ (by decide)⟩
  simp only at f1 f2 f4
  have hm : ((⟨⟨h.LSM303AGR_CFG_REG_A, 1⟩, 2, 2⟩ : Adafruit_BusIO_RegisterBits).write rate
      w).regs h.LSM303AGR_CFG_REG_A
        = toByte (((w.regs h.LSM303AGR_CFG_REG_A).val &&& 0xF3) ||| ((rate % 4) <<< 2)) := by
    simp only [bits_write_one_regs, if_true, mergeField_two_mod 2 _ rate, f1]
  refine ⟨_, setDataRate_ready h d w rate hd, ?_, ?_, ?_, ?_⟩
  · simp only [bits_write_one_trace, mergeField_two_mod 2 _ rate, f1]
  · intro r hr
    simp only [bits_write_one_regs, hr, if_false]
  · rw [hm, f2, f4]
  · intro i h2 h3
    apply testBit_eq_of_mask _ _ _ i h2 h3
    rw [hm, f2, f4]

/-- Witness of C8: the out-of-range rate value 7 on the example device; the
register goes from `0x03` to `0x0F`, register C keeps `0x00`. -/
theorem setDataRate_frame_witness :
    Ready exampleHeader readyDriver ∧
    ∃ w', setDataRate readyDriver 7 exampleWorld = some w' ∧
      w'.trace = [Event.readRegister 0x60 1, Event.writeRegister 0x60 [0x0F]] ∧
      (∀ r, r ≠ 0x60 → w'.regs r = exampleWorld.regs r) :=
  ⟨by decide,
   (setDataRate_frame exampleHeader readyDriver exampleWorld 7 (by decide)).imp
     (fun _ hw => ⟨hw.1, hw.2.1, hw.2.2.1⟩)⟩


/-! ## Reading a sample -/

/-- Result of `read` on a driver whose I2C device exists: one six-byte register read. -/
theorem read_ready (h : Header) (d : Driver) (w : World) (a : Nat) (hi : d.i2c_dev = some a) :
    read h d w = some
      ({ d with raw :=
          ⟨toInt16 ((w.regs (h.LSM303AGR_OUTX_L_REG + 0)).val
              + 256 * (w.regs (h.LSM303AGR_OUTX_L_REG + 1)).val),
           toInt16 ((w.regs (h.LSM303AGR_OUTX_L_REG + 2)).val
              + 256 * (w.regs (h.LSM303AGR_OUTX_L_REG + 3)).val),
           toInt16 ((w.regs (h.LSM303AGR_OUTX_L_REG + 4)).val
              + 256 * (w.regs (h.LSM303AGR_OUTX_L_REG + 5)).val)⟩ },
       w.log (.readRegister h.LSM303AGR_OUTX_L_REG 6)) := by
  simp [read, hi, Adafruit_BusIO_Register.readBuffer, World.readRegister, uint16At,
    List.range_succ]

/-- Two's complement reading of a 16-bit value assembled from two bytes. -/
theorem toInt16_pair (lo hi : Fin 256) :
    toInt16 (lo.val + 256 * hi.val)
      = (if lo.val + 256 * hi.val ≥ 32768 then ((lo.val + 256 * hi.val : Nat) : Int) - 65536
         else ((lo.val + 256 * hi.val : Nat) : Int)) ∧
    -32768 ≤ toInt16 (lo.val + 256 * hi.val) ∧ toInt16 (lo.val + 256 * hi.val) ≤ 32767 := by
  have hl := lo.isLt
  have hh := hi.isLt
  have hm : (lo.val + 256 * hi.val) % 65536 = lo.val + 256 * hi.val := Nat.mod_eq_of_lt (by omega)
  unfold toInt16
  rw [hm]
  refine ⟨?_, ?_, ?_⟩ <;> split_ifs <;> omega

/-- C5: on a driver whose I2C device exists, `read` does one six-byte read at
the output-data base register and stores, for the bytes `b 0 .. b 5` it
returns, the signed 16-bit reading of `b 0 + 256 * b 1` in `raw.x`, of
`b 2 + 256 * b 3` in `raw.y` and of `b 4 + 256 * b 5` in `raw.z`: a value of
32768 or more becomes the value minus 65536, and each result lies between
-32768 and 32767. -/
theorem read_stores_signed_little_endian (h : Header) (d : Driver) (w : World) (a : Nat)
    (hi : d.i2c_dev = some a) :
    let b := fun i => (w.regs (h.LSM303AGR_OUTX_L_REG + i)).val
    let signed16 := fun (u : Nat) => if u ≥ 32768 then (u : Int) - 65536 else (u : Int)
    ∃ d' w', read h d w = some (d', w') ∧
      w'.trace = w.trace ++ [Event.readRegister h.LSM303AGR_OUTX_L_REG 6] ∧
      d'.raw.x = signed16 (b 0 + 256 * b 1) ∧
      d'.raw.y = signed16 (b 2 + 256 * b 3) ∧
      d'.raw.z = signed16 (b 4 + 256 * b 5) ∧
      (-32768 ≤ d'.raw.x ∧ d'.raw.x ≤ 32767) ∧
      (-32768 ≤ d'.raw.y ∧ d'.raw.y ≤ 32767) ∧
      (-32768 ≤ d'.raw.z ∧ d'.raw.z ≤ 32767) := by
  intro b signed16
  have hx := toInt16_pair (w.regs (h.LSM303AGR_OUTX_L_REG + 0)) (w.regs (h.LSM303AGR_OUTX_L_REG + 1))
  have hy := toInt16_pair (w.regs (h.LSM303AGR_OUTX_L_REG + 2)) (w.regs (h.LSM303AGR_OUTX_L_REG + 3))
  have hz := toInt16_pair (w.regs (h.LSM303AGR_OUTX_L_REG + 4)) (w.regs (h.LSM303AGR_OUTX_L_REG + 5))
  exact ⟨_, _, read_ready h d w a hi, rfl, hx.1, hy.1, hz.1, hx.2, hy.2, hz.2⟩

/-- Witness of C5: the example device holds the bytes 100, 0, 56, 255, 44, 1,
which `read` stores as (100, -200, 300). -/
theorem read_stores_signed_little_endian_witness :
    readyDriver.i2c_dev = some 0x1E ∧
    ∃ d' w', read exampleHeader readyDriver exampleWorld = some (d', w') ∧
      w'.trace = [Event.readRegister 0x68 6] ∧
      d'.raw.x = 100 ∧ d'.raw.y = -200 ∧ d'.raw.z = 300 := by
  obtain ⟨d', w', hr, ht, hx, hy, hz, -⟩ :=
    read_stores_signed_little_endian exampleHeader readyDriver exampleWorld 0x1E rfl
  exact ⟨rfl, d', w', hr, ht, hx.trans (by decide), hy.trans (by decide), hz.trans (by decide)⟩

/-! ## The descriptor -/

/-- Entry `i` of the name field after `memset`, `strncpy` of `width - 1` bytes
and the final NUL. -/
theorem name_field_getElem? (src : List Nat) (width i : Nat) :
    ((strncpy (List.replicate width 0) src (width - 1)).set (width - 1) 0)[i]?
      = if i < width then some (if i < width - 1 then src.getD i 0 else 0) else none := by
  by_cases hi : i < width
  · by_cases h3 : i = width - 1
    · subst h3
      simp [strncpy, List.getElem?_set, hi]
    · have h2 : i < width - 1 := by omega
      simp [strncpy, List.getElem?_set, hi, Ne.symm h3, h2, List.getElem?_range]
  · rw [if_neg hi, List.getElem?_eq_none]
    simp only [strncpy, List.length_set, List.length_map, List.length_range,
      List.length_replicate]
    omega

/-- The name field after `memset`, `strncpy` of `width - 1` bytes and the
final NUL: the source capped to `width - 1` bytes, then NUL bytes up to the
width of the field. -/
theorem name_field (src : List Nat) (width : Nat) (hw : 0 < width) :
    (strncpy (List.replicate width 0) src (width - 1)).set (width - 1) 0
      = src.take (width - 1) ++ List.replicate (width - min src.length (width - 1)) 0 := by
  apply List.ext_getElem?
  intro i
  rw [name_field_getElem?]
  by_cases hl : src.length ≤ width - 1
  · rw [Nat.min_eq_left hl, List.take_of_length_le hl]
    by_cases h1 : i < src.length
    · have hi : i < width := by omega
      have h2 : i < width - 1 := by omega
      simp [List.getElem?_append, h1, hi, h2, List.getD_eq_getElem?_getD]
    · by_cases hi : i < width
      · have h5 : i - src.length < width - src.length := by omega
        simp [List.getElem?_append, h1, hi, List.getD_eq_getElem?_getD, List.getElem?_replicate, h5]
        intro _
        rw [List.getElem?_eq_none (by omega)]
        rfl
      · have h5 : ¬ i - src.length < width - src.length := by omega
        simp [List.getElem?_append, h1, hi, List.getElem?_replicate, h5]
  · have hm : min src.length (width - 1) = width - 1 := Nat.min_eq_right (by omega)
    rw [hm]
    have h1 : width - (width - 1) = 1 := by omega
    rw [h1]
    by_cases h2 : i < width - 1
    · have hi : i < width := by omega
      have h3 : i < src.length := by omega
      simp [List.getElem?_append, List.getElem?_take, hi, h2, h3, List.getD_eq_getElem?_getD]
    · by_cases hi : i < width
      · have h3 : i = width - 1 := by omega
        have hm' : min (width - 1) src.length = width - 1 := Nat.min_eq_left (by omega)
        subst h3
        simp [List.getElem?_append, List.getElem?_take, hi, hm']
      · have hm' : min (width - 1) src.length = width - 1 := Nat.min_eq_left (by omega)
        simp [List.getElem?_append, List.getElem?_take, hi, h2, hm']
        omega

/-- The function `begin` never changes the identifier. -/
theorem begin_sensorID (h : Header) (d : Driver) (i2c_address : Nat) (w : World)
    (r : Bool × Driver × World) (hb : begin h d i2c_address w = some r) :
    r.2.1._sensorID = d._sensorID := by
  cases hop : w.openOk with
  | false =>
    rw [begin_closed h d i2c_address w hop, Option.some.injEq] at hb
    rw [← hb]
  | true =>
    by_cases hid : (w.regs h.LSM303AGR_WHO_AM_I).val = h._CHIP_ID
    · rw [begin_expected h d i2c_address w hop hid] at hb
      obtain ⟨w', -, hw'⟩ := Option.map_eq_some'.mp hb
      rw [← hw']
    · rw [begin_stranger h d i2c_address w hop hid, Option.some.injEq] at hb
      rw [← hb]

/-- No call changes the identifier. -/
theorem step_sensorID (h : Header) (c : Call) (s s' : Driver × World)
    (hs : step h c s = some s') : s'.1._sensorID = s.1._sensorID := by
  cases c with
  | begin a =>
    obtain ⟨r, hr, hr'⟩ := Option.map_eq_some'.mp hs
    rw [← hr']
    exact begin_sensorID h s.1 a s.2 r hr
  | reset =>
    obtain ⟨r, -, hr'⟩ := Option.map_eq_some'.mp hs
    rw [← hr']
  | setDataRate rate =>
    obtain ⟨r, -, hr'⟩ := Option.map_eq_some'.mp hs
    rw [← hr']
  | getDataRate =>
    obtain ⟨r, -, hr'⟩ := Option.map_eq_some'.mp hs
    rw [← hr']
  | getEvent =>
    obtain ⟨r, hr, hr'⟩ := Option.map_eq_some'.mp hs
    rw [← hr']
    simp only [getEvent] at hr
    cases hread : read h s.1 s.2 with
    | none => simp [hread] at hr
    | some p =>
      simp only [hread, Option.some.injEq] at hr
      rw [← hr]
      simp only [read] at hread
      cases hi : s.1.i2c_dev with
      | none => simp [hi] at hread
      | some a =>
        simp only [hi, Option.some.injEq] at hread
        rw [← hread]
  | getSensor =>
    simp only [step, Option.some.injEq] at hs
    rw [← hs]

/-- No sequence of calls changes the identifier. -/
theorem run_sensorID (h : Header) (calls : List Call) (s s' : Driver × World)
    (hs : run h calls s = some s') : s'.1._sensorID = s.1._sensorID := by
  induction calls generalizing s with
  | nil =>
    simp only [run, Option.some.injEq] at hs
    rw [hs]
  | cons c cs ih =>
    simp only [run] at hs
    obtain ⟨m, hm, hm'⟩ := Option.bind_eq_some.mp hs
    rw [ih m hm', step_sensorID h c s m hm]

/-- C6: for every identifier given to the constructor and every sequence of
calls made since, `getSensor` returns the descriptor whose name is
"LSM303AGR Mag" capped to the width of the name field minus one and followed
by NUL bytes up to that width, whose version is 1, whose `sensor_id` is the
constructor's identifier, whose type is the magnetic-field tag and whose
`min_delay`, `max_value`, `min_value` and `resolution` are zero; the world
(registers and log of bus accesses) is returned unchanged. -/
theorem getSensor_descriptor (h : Header) (sensorID : Int) (calls : List Call)
    (w0 : World) (d : Driver) (w : World) (hn : 0 < h.sizeof_name)
    (hrun : run h calls (Adafruit_LSM303AGR_Mag_Unified sensorID, w0) = some (d, w)) :
    getSensor h d w =
      ({ name := (cString "LSM303AGR Mag").take (h.sizeof_name - 1) ++
                  List.replicate
                    (h.sizeof_name - min (cString "LSM303AGR Mag").length (h.sizeof_name - 1)) 0
         version := 1
         sensor_id := sensorID
         type := h.SENSOR_TYPE_MAGNETIC_FIELD
         max_value := 0
         min_value := 0
         resolution := 0
         min_delay := 0 }, w) := by
  have hid : d._sensorID = sensorID := run_sensorID h calls _ _ hrun
  simp only [getSensor, name_field _ _ hn, hid]

/-- Witness of C6: after `begin`, `setDataRate`, `getEvent` and `getDataRate`
on the example device, with the twelve-byte name field of `Adafruit_Sensor.h`:
the name is "LSM303AGR M" followed by NUL. -/
theorem getSensor_descriptor_witness :
    0 < exampleHeader.sizeof_name ∧
    ∃ d w, run exampleHeader [.begin 0x1E, .setDataRate 2, .getEvent, .getDataRate]
        (Adafruit_LSM303AGR_Mag_Unified 7, exampleWorld) = some (d, w) ∧
      getSensor exampleHeader d w =
        ({ name := [76, 83, 77, 51, 48, 51, 65, 71, 82, 32, 77, 0]
           version := 1
           sensor_id := 7
           type := 2
           max_value := 0
           min_value := 0
           resolution := 0
           min_delay := 0 }, w) := by
  have hs : (run exampleHeader [.begin 0x1E, .setDataRate 2, .getEvent, .getDataRate]
      (Adafruit_LSM303AGR_Mag_Unified 7, exampleWorld)).isSome = true := by decide
  obtain ⟨⟨d, w⟩, hdw⟩ := Option.isSome_iff_exists.mp hs
  exact ⟨by decide, d, w, hdw,
    getSensor_descriptor exampleHeader 7 _ exampleWorld d w (by decide) hdw⟩

end LSM303AGR
